import Mathlib

/-!
Shallow embedding of the ensemble cost-calculator
(`src/pages/01_Ensemble_CSV.py` and `src/app_components/utils.py`).

The physical/financial collaborators (`simulate_system`, `DataCenter`,
`calculate_lcoe`, `calculate_energy_mix`, `get_solar_ac_dataframe`) are
external to the core; their combined per-case outcome is abstracted as a
parameter `sim : Case → Outcome` (objective values on success, or a raised
error with its message).  Python floats are modelled as rationals, the swept
capacities as integers, and the result rows as records with optional fields
(mirroring the `None` entries of the Python dicts).
-/

namespace CostCalc

/-- A candidate configuration ("case").  Mirrors the Python dict built at
`01_Ensemble_CSV.py:148-158`; every field is optional because
`validate_case_inputs` reads fields with `case.get(key, 0)`, treating a
missing key as 0. -/
structure Case where
  lat : Option ℚ := none
  long : Option ℚ := none
  solar_pv_capacity_mw : Option Int := none
  bess_max_power_mw : Option Int := none
  generator_capacity_mw : Option Int := none
  generator_type : Option String := none
  datacenter_load_mw : Option Int := none
deriving DecidableEq, Repr

/-- `app_components/utils.py:8-25` — `validate_case_inputs`: four checks in a
fixed order, returning the message of the first violated check, or `""` when
the case is valid.  `case.get(k, 0)` is `Option.getD _ 0`. -/
def validate_case_inputs (case : Case) : String :=
  if case.datacenter_load_mw.getD 0 ≤ 0 then "invalid: datacenter_load_mw <= 0"
  else if case.solar_pv_capacity_mw.getD 0 < 0 then "invalid: solar_pv_capacity_mw < 0"
  else if case.bess_max_power_mw.getD 0 < 0 then "invalid: bess_max_power_mw < 0"
  else if case.generator_capacity_mw.getD 0 < 0 then "invalid: generator_capacity_mw < 0"
  else ""

/-- Outcome of the external simulator/financial-model chain for one case:
objective values on success, a raised `ValueError` with its message, or any
other raised exception with its message. -/
inductive Outcome where
  | success (lcoe renewable_percentage : ℚ)
  | valueError (msg : String)
  | otherError (msg : String)
deriving DecidableEq, Repr

/-- One row of the result table, as returned by `run_case`
(`01_Ensemble_CSV.py:161-229`): the case fields plus `system_spec`, `lcoe`,
`renewable_percentage` (all `None` on failure) and the `status` string. -/
structure RcResult where
  case : Case
  system_spec : Option String
  lcoe : Option ℚ
  renewable_percentage : Option ℚ
  status : String
deriving DecidableEq, Repr

/-- Python `s.replace(" ", "")` as applied to the generator type at
`01_Ensemble_CSV.py:211`: with a one-character pattern and empty replacement
this deletes every space. -/
def removeSpaces (s : String) : String :=
  String.mk (s.data.filter fun c => c ≠ ' ')

/-- The `system_spec` label built at `01_Ensemble_CSV.py:211`. -/
def specOf (case : Case) : String :=
  toString (case.solar_pv_capacity_mw.getD 0) ++ "MW_PV_" ++
  toString (case.bess_max_power_mw.getD 0) ++ "MW_BESS_" ++
  toString (case.generator_capacity_mw.getD 0) ++ "MW_" ++
  removeSpaces (case.generator_type.getD "")

/-- Python `str.lower()` on the message, as a character list (the messages in
play are ASCII, where CPython and `Char.toLower` agree). -/
def strLowerData (s : String) : List Char := s.data.map Char.toLower

/-- Python `needle in hay` after `hay = hay.lower()` — substring test. -/
def hasSub (hay needle : String) : Prop := needle.data <:+: strLowerData hay

instance (hay needle : String) : Decidable (hasSub hay needle) := by
  unfold hasSub; infer_instance

/-- The `ValueError` classification test at `01_Ensemble_CSV.py:222-223`:
`"zero" in error_msg and ("energy" in error_msg or "lifetime" in error_msg)`
on the lower-cased message. -/
def isZeroEnergyMsg (msg : String) : Prop :=
  hasSub msg "zero" ∧ (hasSub msg "energy" ∨ hasSub msg "lifetime")

instance (msg : String) : Decidable (isZeroEnergyMsg msg) := by
  unfold isZeroEnergyMsg; infer_instance

/-- An error row: `{**case, "system_spec": None, "lcoe": None,
"renewable_percentage": None, "status": status}`. -/
def errRow (case : Case) (status : String) : RcResult :=
  ⟨case, none, none, none, status⟩

/-- `01_Ensemble_CSV.py:161-229` — `run_case`: validate, then run the
collaborator chain, classifying a raised `ValueError` whose lower-cased
message contains `"zero"` and (`"energy"` or `"lifetime"`) as the normalized
`"error: zero energy"`, any other raised error as `error: <message>`. -/
def run_case (sim : Case → Outcome) (case : Case) : RcResult :=
  let validation_error := validate_case_inputs case
  if validation_error ≠ "" then errRow case ("error: " ++ validation_error)
  else
    match sim case with
    | .success l r => ⟨case, some (specOf case), some l, some r, "success"⟩
    | .valueError m =>
        if isZeroEnergyMsg m then errRow case "error: zero energy"
        else errRow case ("error: " ++ m)
    | .otherError m => errRow case ("error: " ++ m)

/-- No status string produced by an error path equals `"success"`. -/
lemma err_ne_success (v : String) : "error: " ++ v ≠ "success" := by
  intro h
  have h2 : ("error: " ++ v).data = "success".data := by rw [h]
  rw [String.data_append] at h2
  simp at h2

/-- Python `range(start, stop, step)` with positive `step` (the code only
reaches `range` after rejecting non-positive steps): the values
`start, start+step, ...` while `< stop`.  Fuel-driven; with `step ≥ 1` the
fuel `(stop - start).toNat` dominates the number of produced elements. -/
def rangeListAux : Nat → Int → Int → Int → List Int
  | 0, _, _, _ => []
  | fuel + 1, cur, stop, step =>
      if cur < stop then cur :: rangeListAux fuel (cur + step) stop step else []

/-- `list(range(start, stop, step))` for `step > 0` (`01_Ensemble_CSV.py:140-142`). -/
def rangeList (start stop step : Int) : List Int :=
  if step ≤ 0 then [] else rangeListAux (stop - start).toNat start stop step

/-- The fixed per-run fields shared by every generated case. -/
structure Fixed where
  lat : ℚ
  long : ℚ
  gen_type : String
  dc_load : Int
deriving DecidableEq, Repr

/-- One generated case (`01_Ensemble_CSV.py:148-158`): the fixed fields plus
the three swept capacities. -/
def mkCase (f : Fixed) (s b g : Int) : Case :=
  { lat := some f.lat, long := some f.long,
    solar_pv_capacity_mw := some s, bess_max_power_mw := some b,
    generator_capacity_mw := some g, generator_type := some f.gen_type,
    datacenter_load_mw := some f.dc_load }

/-- `itertools.product(solar_vals, bess_vals, gen_vals)` materialized as cases:
solar is the outer loop, storage the middle, generator the inner. -/
def mkCases (f : Fixed) (solar_vals bess_vals gen_vals : List Int) : List Case :=
  solar_vals.flatMap fun s =>
    bess_vals.flatMap fun b =>
      gen_vals.map fun g => mkCase f s b g

/-- The whole-run configuration: sweep triples, fixed fields, concurrency. -/
structure Config where
  fixed : Fixed
  solar_start : Int
  solar_stop : Int
  solar_step : Int
  bess_start : Int
  bess_stop : Int
  bess_step : Int
  gen_start : Int
  gen_stop : Int
  gen_step : Int
  max_conc : Int
deriving DecidableEq, Repr

/-- The `validation_errors` list built at `01_Ensemble_CSV.py:125-133`. -/
def validationErrors (cfg : Config) : List String :=
  (if cfg.fixed.dc_load ≤ 0 then ["datacenter_load_mw must be > 0"] else []) ++
  (if cfg.solar_step ≤ 0 then ["solar_step must be > 0"] else []) ++
  (if cfg.bess_step ≤ 0 then ["bess_step must be > 0"] else []) ++
  (if cfg.gen_step ≤ 0 then ["gen_step must be > 0"] else [])

/-- The `st.error` message of `01_Ensemble_CSV.py:136`. -/
def validationMessage (cfg : Config) : String :=
  "Input validation failed:\n" ++
    String.intercalate "\n" ((validationErrors cfg).map (fun e => "- " ++ e))

/-- The three expanded sweeps of `01_Ensemble_CSV.py:140-142`. -/
def solarVals (cfg : Config) : List Int :=
  rangeList cfg.solar_start cfg.solar_stop cfg.solar_step

def bessVals (cfg : Config) : List Int :=
  rangeList cfg.bess_start cfg.bess_stop cfg.bess_step

def genVals (cfg : Config) : List Int :=
  rangeList cfg.gen_start cfg.gen_stop cfg.gen_step

/-- Evaluating every case in generation order: the multiset of rows the
thread pool produces (each submitted case contributes exactly one
`run_case` result, `01_Ensemble_CSV.py:234-236`). -/
def evalAll (sim : Case → Outcome) (cases : List Case) : List RcResult :=
  cases.map (run_case sim)

/-- The whole run up to and including evaluation
(`01_Ensemble_CSV.py:124-236`): input validation aborts first
(`st.error` + `st.stop`), then the empty-sweep check, then the thread pool is
constructed — `ThreadPoolExecutor(max_workers=n)` raises
`ValueError("max_workers must be greater than 0")` for `n < 1` (documented
contract of the standard library collaborator), so evaluation never starts in
that case.  On success it returns the rows of the generated cases in
generation order; the actual collection order of the concurrent run is some
permutation of them (`cf.as_completed`), which the theorems quantify over. -/
def runEnsemble (sim : Case → Outcome) (cfg : Config) : Except String (List RcResult) :=
  if validationErrors cfg ≠ [] then .error (validationMessage cfg)
  else if solarVals cfg = [] ∨ bessVals cfg = [] ∨ genVals cfg = [] then
    .error "Empty sweep - check *_start, *_stop, *_step params"
  else if cfg.max_conc < 1 then .error "max_workers must be greater than 0"
  else .ok (evalAll sim (mkCases cfg.fixed (solarVals cfg) (bessVals cfg) (genVals cfg)))

/-- `succ = raw_df[raw_df["status"] == "success"]` (`01_Ensemble_CSV.py:250`),
keeping table order. -/
def succOf (table : List RcResult) : List RcResult :=
  table.filter fun r => r.status == "success"

/-- The `lcoe` value of a success row (present there by construction). -/
def lcoeVal (r : RcResult) : ℚ := r.lcoe.getD 0

/-- `succ["lcoe"].idxmin()` (`01_Ensemble_CSV.py:255`): the first row, in
table order, attaining the minimum `lcoe`.  Returns `none` on an empty list. -/
def pickBest : List RcResult → Option RcResult
  | [] => none
  | r :: rest =>
      match pickBest rest with
      | none => some r
      | some b => if lcoeVal b < lcoeVal r then some b else some r

/-- Best-row selection (`01_Ensemble_CSV.py:249-256`): filter successes; if
none remain the run fails with `"All cases failed"`; otherwise the first
minimum-`lcoe` success is the best row. -/
def selectBest (table : List RcResult) : Except String RcResult :=
  match pickBest (succOf table) with
  | none => .error "All cases failed"
  | some b => .ok b

section LRUCache

variable {κ α : Type} [DecidableEq κ]

/-- One lookup against a bounded LRU memo table (most-recent entry first).
Models the documented contract of `functools.lru_cache` backing
`solar_ac_cached` (`01_Ensemble_CSV.py:39-41`): a hit returns the stored
value, moves the entry to the front and performs no fetch; a miss fetches,
stores the entry at the front and drops the least-recent entry beyond
capacity.  The third component counts fetches (0 or 1). -/
def lruStep (fetch : κ → α) (cap : Nat) (st : List (κ × α)) (k : κ) :
    α × List (κ × α) × Nat :=
  match st.find? (fun p => decide (p.1 = k)) with
  | some p => (p.2, p :: st.eraseP (fun q => decide (q.1 = k)), 0)
  | none => (fetch k, ((k, fetch k) :: st).take cap, 1)

/-- A sequence of lookups threaded through the LRU state, returning the
looked-up values, the final state, and the total number of fetches. -/
def lruRun (fetch : κ → α) (cap : Nat) :
    List (κ × α) → List κ → List α × List (κ × α) × Nat
  | st, [] => ([], st, 0)
  | st, k :: ks =>
      let s1 := lruStep fetch cap st k
      let s2 := lruRun fetch cap s1.2.1 ks
      (s1.1 :: s2.1, s2.2.1, s1.2.2 + s2.2.2)

end LRUCache

/-- `solar_ac_cached` is `get_solar_ac_dataframe` under `@lru_cache(maxsize=64)`
(`01_Ensemble_CSV.py:39-41`), keyed by the exact `(lat, lon)` pair; a run of
lookups starts from the empty cache.  The fetched profile type is abstract. -/
def solarCacheRun {α : Type} (fetch : ℚ × ℚ → α) (keys : List (ℚ × ℚ)) :
    List α × List ((ℚ × ℚ) × α) × Nat :=
  lruRun fetch 64 [] keys

/-- The `renewable_percentage` value of a success row. -/
def rfVal (r : RcResult) : ℚ := r.renewable_percentage.getD 0

/-- Modelled from the spec: the comparison used to sort successes for the
Pareto frontier — cost ascending, ties broken by descending renewable
fraction (§4.5; the implementation `core.pareto_frontier.process_ensemble_data`
is not under the inspected source tree). -/
def paretoLe (a b : RcResult) : Prop :=
  lcoeVal a < lcoeVal b ∨ (lcoeVal a = lcoeVal b ∧ rfVal b ≤ rfVal a)

instance (a b : RcResult) : Decidable (paretoLe a b) := by
  unfold paretoLe; infer_instance

/-- Insertion into a `paretoLe`-sorted list. -/
def insertSorted (a : RcResult) : List RcResult → List RcResult
  | [] => [a]
  | b :: l => if paretoLe a b then a :: b :: l else b :: insertSorted a l

/-- Modelled from the spec: sorting the successes by `paretoLe` (§4.5). -/
def sortByCost : List RcResult → List RcResult
  | [] => []
  | a :: l => insertSorted a (sortByCost l)

/-- Modelled from the spec: the skyline sweep over the sorted tail — a point
is kept iff its renewable fraction strictly exceeds the running maximum `m`
(§4.5). -/
def skylineAux (m : ℚ) : List RcResult → List RcResult
  | [] => []
  | p :: rest =>
      if m < rfVal p then p :: skylineAux (rfVal p) rest else skylineAux m rest

/-- Modelled from the spec: the skyline of a sorted list — the first point is
always a frontier member, then the sweep (§4.5). -/
def skyline : List RcResult → List RcResult
  | [] => []
  | p :: rest => p :: skylineAux (rfVal p) rest

/-- Modelled from the spec: `process_ensemble_data` (`01_Ensemble_CSV.py:270`,
implemented in the absent `core/pareto_frontier.py`) — the Pareto frontier
over the `status = success` rows, per the deterministic skyline algorithm of
§4.5, returned ordered by ascending cost. -/
def process_ensemble_data (table : List RcResult) : List RcResult :=
  skyline (sortByCost (succOf table))

end CostCalc

namespace CostCalc

/-- An error row whose status is an `"error: "` message carries neither
objective field, and both per-field presence biconditionals hold of it. -/
lemma errRow_objectives (case : Case) (v : String) :
    ((errRow case ("error: " ++ v)).lcoe.isSome
        ↔ (errRow case ("error: " ++ v)).status = "success") ∧
    ((errRow case ("error: " ++ v)).renewable_percentage.isSome
        ↔ (errRow case ("error: " ++ v)).status = "success") ∧
    ((errRow case ("error: " ++ v)).status ≠ "success" →
      (errRow case ("error: " ++ v)).lcoe = none ∧
      (errRow case ("error: " ++ v)).renewable_percentage = none) := by
  refine ⟨?_, ?_, fun _ => ⟨rfl, rfl⟩⟩ <;>
    · simp only [errRow, Option.isSome_none, Bool.false_eq_true, false_iff]
      exact fun h => err_ne_success v h

/-- C3: for every result produced by `run_case`, the `lcoe` field is present
iff `status = "success"`, the `renewable_percentage` field is present iff
`status = "success"`, and every non-success row carries neither objective
field (both are `none`). -/
theorem run_case_objectives_iff_success (sim : Case → Outcome) (case : Case) :
    ((run_case sim case).lcoe.isSome ↔ (run_case sim case).status = "success") ∧
    ((run_case sim case).renewable_percentage.isSome
        ↔ (run_case sim case).status = "success") ∧
    ((run_case sim case).status ≠ "success" →
      (run_case sim case).lcoe = none ∧
      (run_case sim case).renewable_percentage = none) := by
  simp only [run_case]
  by_cases hv : validate_case_inputs case ≠ ""
  · rw [if_pos hv]
    exact errRow_objectives case (validate_case_inputs case)
  · rw [if_neg hv]
    match sim case with
    | .success l r =>
        refine ⟨by simp, by simp, fun h => absurd rfl h⟩
    | .valueError m =>
        dsimp only
        by_cases hz : isZeroEnergyMsg m
        · rw [if_pos hz]
          exact errRow_objectives case "zero energy"
        · rw [if_neg hz]
          exact errRow_objectives case m
    | .otherError m =>
        exact errRow_objectives case m

/-- C10: `validate_case_inputs` evaluates its four checks in the fixed order
load, solar, storage, generator and returns the message of the first violated
check; a field absent from the case is read as 0, so a case missing
`datacenter_load_mw` is always classified invalid, while a case missing a
capacity field passes that capacity's non-negativity check. -/
theorem validate_case_inputs_spec (case : Case) :
    (case.datacenter_load_mw.getD 0 ≤ 0 →
      validate_case_inputs case = "invalid: datacenter_load_mw <= 0") ∧
    (0 < case.datacenter_load_mw.getD 0 → case.solar_pv_capacity_mw.getD 0 < 0 →
      validate_case_inputs case = "invalid: solar_pv_capacity_mw < 0") ∧
    (0 < case.datacenter_load_mw.getD 0 → 0 ≤ case.solar_pv_capacity_mw.getD 0 →
      case.bess_max_power_mw.getD 0 < 0 →
      validate_case_inputs case = "invalid: bess_max_power_mw < 0") ∧
    (0 < case.datacenter_load_mw.getD 0 → 0 ≤ case.solar_pv_capacity_mw.getD 0 →
      0 ≤ case.bess_max_power_mw.getD 0 → case.generator_capacity_mw.getD 0 < 0 →
      validate_case_inputs case = "invalid: generator_capacity_mw < 0") ∧
    (case.datacenter_load_mw = none →
      validate_case_inputs case = "invalid: datacenter_load_mw <= 0") ∧
    (case.solar_pv_capacity_mw = none →
      validate_case_inputs case ≠ "invalid: solar_pv_capacity_mw < 0") ∧
    (case.bess_max_power_mw = none →
      validate_case_inputs case ≠ "invalid: bess_max_power_mw < 0") ∧
    (case.generator_capacity_mw = none →
      validate_case_inputs case ≠ "invalid: generator_capacity_mw < 0") := by
  unfold validate_case_inputs
  refine ⟨?_, ?_, ?_, ?_, ?_, ?_, ?_, ?_⟩
  · intro h; rw [if_pos h]
  · intro h1 h2; rw [if_neg (by omega), if_pos h2]
  · intro h1 h2 h3; rw [if_neg (by omega), if_neg (by omega), if_pos h3]
  · intro h1 h2 h3 h4
    rw [if_neg (by omega), if_neg (by omega), if_neg (by omega), if_pos h4]
  · intro h; rw [h]; rw [if_pos (by simp)]
  · intro h
    rw [h, if_neg (show ¬ ((none : Option Int).getD 0 < 0) by decide)]
    split_ifs <;> decide
  · intro h
    rw [h, if_neg (show ¬ ((none : Option Int).getD 0 < 0) by decide)]
    split_ifs <;> decide
  · intro h
    rw [h, if_neg (show ¬ ((none : Option Int).getD 0 < 0) by decide)]
    split_ifs <;> decide

/-- A case with every field missing except a positive solar capacity. -/
def caseNoLoad : Case := { solar_pv_capacity_mw := some 5 }

/-- A case with only a positive load; all capacity fields missing. -/
def caseNoSolar : Case := { datacenter_load_mw := some 100 }

theorem validate_case_inputs_spec_witness :
    validate_case_inputs caseNoLoad = "invalid: datacenter_load_mw <= 0" ∧
    validate_case_inputs caseNoSolar ≠ "invalid: solar_pv_capacity_mw < 0" :=
  ⟨(validate_case_inputs_spec caseNoLoad).2.2.2.2.1 rfl,
   (validate_case_inputs_spec caseNoSolar).2.2.2.2.2.1 rfl⟩

/-- C4: when a valid case's collaborator chain raises a `ValueError` whose
message indicates zero lifetime energy, the row's status is the normalized
`"error: zero energy"`; any other raised error yields a status carrying the
raised message verbatim; and every collaborator outcome yields a row whose
status is `"success"` or an `"error: "` message — nothing propagates. -/
theorem run_case_error_classification (case : Case) (m : String)
    (hv : validate_case_inputs case = "") :
    (isZeroEnergyMsg m →
      (run_case (fun _ => .valueError m) case).status = "error: zero energy") ∧
    (¬ isZeroEnergyMsg m →
      (run_case (fun _ => .valueError m) case).status = "error: " ++ m) ∧
    ((run_case (fun _ => .otherError m) case).status = "error: " ++ m) ∧
    (∀ sim : Case → Outcome, (run_case sim case).status = "success" ∨
      ∃ v, (run_case sim case).status = "error: " ++ v) := by
  have hne : ¬ (validate_case_inputs case ≠ "") := by simp [hv]
  refine ⟨?_, ?_, ?_, ?_⟩
  · intro hz
    simp only [run_case]; rw [if_neg hne, if_pos hz]; rfl
  · intro hz
    simp only [run_case]; rw [if_neg hne, if_neg hz]; rfl
  · simp only [run_case]; rw [if_neg hne]; rfl
  · intro sim
    simp only [run_case]; rw [if_neg hne]
    match sim case with
    | .success l r => left; rfl
    | .valueError m2 =>
        dsimp only
        by_cases hz : isZeroEnergyMsg m2
        · rw [if_pos hz]; right; exact ⟨"zero energy", rfl⟩
        · rw [if_neg hz]; right; exact ⟨m2, rfl⟩
    | .otherError m2 => right; exact ⟨m2, rfl⟩

/-- A fully populated valid case used by concrete witnesses. -/
def caseValidW : Case :=
  mkCase { lat := 31, long := -102, gen_type := "Gas Engine", dc_load := 100 } 0 0 0

theorem run_case_error_classification_witness :
    (run_case (fun _ => .valueError "Zero lifetime energy") caseValidW).status
        = "error: zero energy" ∧
    (run_case (fun _ => .otherError "boom") caseValidW).status = "error: boom" :=
  ⟨(run_case_error_classification caseValidW "Zero lifetime energy" (by decide)).1
      (by decide),
   (run_case_error_classification caseValidW "boom" (by decide)).2.2.1⟩

/-- The length of the inner (storage × generator) block of the product. -/
lemma length_mkCases_inner (f : Fixed) (s : Int) (bv gv : List Int) :
    (bv.flatMap fun b => gv.map fun g => mkCase f s b g).length
      = bv.length * gv.length := by
  induction bv with
  | nil => simp
  | cons b bt ih =>
      rw [List.flatMap_cons, List.length_append, List.length_map, ih, List.length_cons]
      ring

/-- The generated case list has the full Cartesian-product length. -/
lemma length_mkCases (f : Fixed) (sv bv gv : List Int) :
    (mkCases f sv bv gv).length = sv.length * (bv.length * gv.length) := by
  unfold mkCases
  induction sv with
  | nil => simp
  | cons s st ih =>
      rw [List.flatMap_cons, List.length_append, length_mkCases_inner, ih, List.length_cons]
      ring

/-- Inverting a successful run: the produced rows are the evaluated cases. -/
lemma runEnsemble_ok_eq (sim : Case → Outcome) (cfg : Config)
    (gen : List RcResult) (hok : runEnsemble sim cfg = .ok gen) :
    gen = evalAll sim (mkCases cfg.fixed (solarVals cfg) (bessVals cfg) (genVals cfg)) := by
  unfold runEnsemble at hok
  split_ifs at hok
  all_goals
    first
      | exact Except.noConfusion hok
      | (injection hok with h; exact h.symm)

/-- C2: for every run that passes input validation, the result table — any
completion-order permutation of the evaluated rows — has length exactly
|solar_vals| · |storage_vals| · |generator_vals|: one row per generated case,
none dropped on failure. -/
theorem resultTable_length (sim : Case → Outcome) (cfg : Config)
    (gen : List RcResult) (hok : runEnsemble sim cfg = .ok gen)
    (table : List RcResult) (hperm : table.Perm gen) :
    table.length
      = (solarVals cfg).length * ((bessVals cfg).length * (genVals cfg).length) := by
  rw [hperm.length_eq, runEnsemble_ok_eq sim cfg gen hok]
  unfold evalAll
  rw [List.length_map, length_mkCases]

/-- A collaborator that always succeeds with fixed objective values. -/
def simConst : Case → Outcome := fun _ => .success 50 (7/10)

/-- A collaborator that always raises a generic error. -/
def simBoom : Case → Outcome := fun _ => .otherError "boom"

/-- A small well-formed configuration: sweeps {0,50} × {0,50} × {0}. -/
def cfgSmall : Config :=
  { fixed := { lat := 31, long := -102, gen_type := "Gas Engine", dc_load := 100 },
    solar_start := 0, solar_stop := 100, solar_step := 50,
    bess_start := 0, bess_stop := 100, bess_step := 50,
    gen_start := 0, gen_stop := 25, gen_step := 25,
    max_conc := 10 }

theorem resultTable_length_witness :
    (evalAll simConst (mkCases cfgSmall.fixed (solarVals cfgSmall) (bessVals cfgSmall)
        (genVals cfgSmall))).length
      = (solarVals cfgSmall).length * ((bessVals cfgSmall).length * (genVals cfgSmall).length) :=
  resultTable_length simConst cfgSmall _ rfl _ (List.Perm.refl _)

/-- A violated precondition forces a non-empty `validation_errors` list. -/
lemma validationErrors_ne_nil (cfg : Config)
    (h : cfg.fixed.dc_load ≤ 0 ∨ cfg.solar_step ≤ 0 ∨ cfg.bess_step ≤ 0 ∨ cfg.gen_step ≤ 0) :
    validationErrors cfg ≠ [] := by
  unfold validationErrors
  rcases h with h | h | h | h <;> simp [h]

/-- C5: a non-positive step or load aborts the whole run with the
input-validation error, and an empty expanded sweep aborts with the explicit
empty-sweep error; in both situations the outcome is identical for every
collaborator, so no case is ever evaluated. -/
theorem run_aborts_on_bad_input (cfg : Config) (sim sim2 : Case → Outcome) :
    ((cfg.fixed.dc_load ≤ 0 ∨ cfg.solar_step ≤ 0 ∨ cfg.bess_step ≤ 0 ∨ cfg.gen_step ≤ 0) →
      runEnsemble sim cfg = .error (validationMessage cfg) ∧
      runEnsemble sim cfg = runEnsemble sim2 cfg) ∧
    (validationErrors cfg = [] →
      (solarVals cfg = [] ∨ bessVals cfg = [] ∨ genVals cfg = []) →
      runEnsemble sim cfg = .error "Empty sweep - check *_start, *_stop, *_step params" ∧
      runEnsemble sim cfg = runEnsemble sim2 cfg) := by
  constructor
  · intro h
    have hne : validationErrors cfg ≠ [] := validationErrors_ne_nil cfg h
    unfold runEnsemble
    rw [if_pos hne, if_pos hne]
    exact ⟨rfl, rfl⟩
  · intro h hempty
    have hne : ¬ (validationErrors cfg ≠ []) := by simp [h]
    unfold runEnsemble
    rw [if_neg hne, if_neg hne, if_pos hempty, if_pos hempty]
    exact ⟨rfl, rfl⟩

/-- `cfgSmall` with a zero solar step: rejected by input validation. -/
def cfgBadStep : Config := { cfgSmall with solar_step := 0 }

/-- `cfgSmall` with an empty generator range. -/
def cfgEmptyGen : Config := { cfgSmall with gen_stop := 0 }

theorem run_aborts_on_bad_input_witness :
    runEnsemble simConst cfgBadStep = .error (validationMessage cfgBadStep) ∧
    runEnsemble simConst cfgEmptyGen
      = .error "Empty sweep - check *_start, *_stop, *_step params" :=
  ⟨((run_aborts_on_bad_input cfgBadStep simConst simBoom).1
      (Or.inr (Or.inl (by decide)))).1,
   ((run_aborts_on_bad_input cfgEmptyGen simConst simBoom).2
      (by decide) (Or.inr (Or.inr (by decide)))).1⟩

/-- C6: if no entry of the completed result table has status `"success"`,
best-case selection reports the whole run as failed (`"All cases failed"`)
and returns no best row. -/
theorem selectBest_all_failed (table : List RcResult)
    (h : ∀ r ∈ table, r.status ≠ "success") :
    selectBest table = .error "All cases failed" := by
  have hf : succOf table = [] := by
    unfold succOf
    rw [List.filter_eq_nil_iff]
    intro r hr
    simpa using h r hr
  unfold selectBest
  rw [hf]
  rfl

theorem selectBest_all_failed_witness :
    selectBest (evalAll simBoom (mkCases cfgSmall.fixed (solarVals cfgSmall)
        (bessVals cfgSmall) (genVals cfgSmall))) = .error "All cases failed" :=
  selectBest_all_failed _ (by decide)

/-- C7: a configured concurrency below 1 is rejected before any case
evaluation begins — the run never yields a result table, and its outcome does
not depend on the collaborator (models `ThreadPoolExecutor`'s documented
`ValueError` for `max_workers < 1`). -/
theorem max_conc_rejected (cfg : Config) (h : cfg.max_conc < 1) :
    ∀ sim sim2 : Case → Outcome,
      (∀ t, runEnsemble sim cfg ≠ .ok t) ∧
      runEnsemble sim cfg = runEnsemble sim2 cfg := by
  intro sim sim2
  unfold runEnsemble
  by_cases h1 : validationErrors cfg ≠ []
  · rw [if_pos h1, if_pos h1]
    exact ⟨fun t ht => Except.noConfusion ht, rfl⟩
  · rw [if_neg h1, if_neg h1]
    by_cases h2 : solarVals cfg = [] ∨ bessVals cfg = [] ∨ genVals cfg = []
    · rw [if_pos h2, if_pos h2]
      exact ⟨fun t ht => Except.noConfusion ht, rfl⟩
    · rw [if_neg h2, if_neg h2, if_pos h, if_pos h]
      exact ⟨fun t ht => Except.noConfusion ht, rfl⟩

/-- `cfgSmall` with zero workers. -/
def cfgZeroConc : Config := { cfgSmall with max_conc := 0 }

theorem max_conc_rejected_witness :
    runEnsemble simConst cfgZeroConc ≠ .ok [] :=
  (max_conc_rejected cfgZeroConc (by decide) simConst simBoom).1 []

theorem run_case_objectives_iff_success_witness :
    (run_case simBoom caseValidW).lcoe = none ∧
    (run_case simBoom caseValidW).renewable_percentage = none :=
  (run_case_objectives_iff_success simBoom caseValidW).2.2 (by decide)

/-- A lookup of `k` against a cache holding exactly `(k, v)` hits: it returns
`v`, leaves the state unchanged, and performs no fetch. -/
lemma lruStep_hit {κ α : Type} [DecidableEq κ] (fetch : κ → α) (cap : Nat)
    (v : α) (k : κ) : lruStep fetch cap [(k, v)] k = (v, [(k, v)], 0) := by
  unfold lruStep
  simp [List.find?, List.eraseP]

/-- Repeated lookups of the one cached key never fetch again. -/
lemma lruRun_same_key {κ α : Type} [DecidableEq κ] (fetch : κ → α) (cap : Nat)
    (v : α) (k : κ) (n : Nat) :
    lruRun fetch cap [(k, v)] (List.replicate n k) = (List.replicate n v, [(k, v)], 0) := by
  induction n with
  | zero => rfl
  | succ m ih => simp [List.replicate_succ, lruRun, lruStep_hit, ih]

/-- C9: for any number `n ≥ 1` of case evaluations sharing one exact
`(latitude, longitude)` key, the solar-profile cache (capacity 64, starting
empty) invokes the external fetch exactly once, and every lookup returns the
fetched value. -/
theorem solarCache_fetch_once {α : Type} (fetch : ℚ × ℚ → α) (k : ℚ × ℚ)
    (n : Nat) (hn : 1 ≤ n) :
    (solarCacheRun fetch (List.replicate n k)).2.2 = 1 ∧
    ∀ v ∈ (solarCacheRun fetch (List.replicate n k)).1, v = fetch k := by
  obtain ⟨m, rfl⟩ : ∃ m, n = m + 1 := ⟨n - 1, by omega⟩
  unfold solarCacheRun
  have h1 : lruStep fetch 64 ([] : List ((ℚ × ℚ) × α)) k = (fetch k, [(k, fetch k)], 1) := by
    unfold lruStep
    simp [List.find?]
  rw [show m + 1 = 1 + m by omega, List.replicate_add]
  simp only [List.replicate_one, List.replicate_succ, List.replicate_zero,
    List.nil_append, List.cons_append]
  simp only [lruRun, h1, lruRun_same_key]
  constructor
  · trivial
  · intro v hv
    rcases List.mem_cons.mp hv with rfl | hv2
    · rfl
    · exact List.eq_of_mem_replicate hv2

/-- A concrete fetch collaborator for the cache witness. -/
def fetchW : ℚ × ℚ → ℚ := fun p => p.1 + p.2

theorem solarCache_fetch_once_witness :
    (solarCacheRun fetchW (List.replicate 3 (31, -102))).2.2 = 1 :=
  (solarCache_fetch_once fetchW (31, -102) 3 (by decide)).1

/-- The defining equation of `pickBest` on a non-empty list. -/
lemma pickBest_cons (a : RcResult) (t : List RcResult) :
    pickBest (a :: t) = match pickBest t with
      | none => some a
      | some b => if lcoeVal b < lcoeVal a then some b else some a := rfl

/-- `pickBest` of a non-empty list is never `none`. -/
lemma pickBest_ne_none (a : RcResult) (t : List RcResult) :
    pickBest (a :: t) ≠ none := by
  rw [pickBest_cons]
  cases pickBest t with
  | none => simp
  | some b => dsimp only; split_ifs <;> simp

/-- The selected row is the first entry, in list order, attaining the
minimum `lcoe`: everything before it is strictly more expensive and nothing
anywhere is cheaper. -/
lemma pickBest_spec (l : List RcResult) (b : RcResult) (hb : pickBest l = some b) :
    ∃ l1 l2, l = l1 ++ b :: l2 ∧ (∀ r ∈ l1, lcoeVal b < lcoeVal r) ∧
      (∀ r ∈ l, lcoeVal b ≤ lcoeVal r) := by
  induction l generalizing b with
  | nil => exact Option.noConfusion hb
  | cons a t ih =>
      rw [pickBest_cons] at hb
      cases ht : pickBest t with
      | none =>
          rw [ht] at hb
          have ht0 : t = [] := by
            cases t with
            | nil => rfl
            | cons x xs => exact absurd ht (pickBest_ne_none x xs)
          injection hb with hba
          subst ht0
          subst hba
          exact ⟨[], [], rfl, by simp, by simp⟩
      | some c =>
          rw [ht] at hb
          dsimp only at hb
          by_cases hlt : lcoeVal c < lcoeVal a
          · rw [if_pos hlt] at hb
            injection hb with hcb
            subst hcb
            obtain ⟨l1, l2, hteq, h1, h2⟩ := ih c ht
            refine ⟨a :: l1, l2, by rw [hteq, List.cons_append], ?_, ?_⟩
            · intro r hr
              rcases List.mem_cons.mp hr with rfl | hr2
              · exact hlt
              · exact h1 r hr2
            · intro r hr
              rcases List.mem_cons.mp hr with rfl | hr2
              · exact le_of_lt hlt
              · exact h2 r hr2
          · rw [if_neg hlt] at hb
            injection hb with hab
            subst hab
            obtain ⟨l1, l2, hteq, h1, h2⟩ := ih c ht
            refine ⟨[], t, rfl, by simp, ?_⟩
            intro r hr
            rcases List.mem_cons.mp hr with rfl | hr2
            · exact le_refl _
            · exact le_trans (le_of_not_lt hlt) (h2 r hr2)

/-- C1 (amended): when a best row exists, it is a success entry of the table,
its `lcoe` is minimal among all success rows, and it is the first entry, in
ResultTable order, attaining that minimum — where the ResultTable is whatever
completion-order permutation of the evaluated cases the concurrent run
collected. -/
theorem bestRow_first_min_in_table_order (sim : Case → Outcome)
    (cases : List Case) (table : List RcResult)
    (hperm : table.Perm (evalAll sim cases)) (b : RcResult)
    (hb : selectBest table = .ok b) :
    b.status = "success" ∧ b ∈ table ∧
    (∀ r ∈ table, r.status = "success" → lcoeVal b ≤ lcoeVal r) ∧
    ∃ l1 l2, succOf table = l1 ++ b :: l2 ∧ ∀ r ∈ l1, lcoeVal b < lcoeVal r := by
  unfold selectBest at hb
  cases hpk : pickBest (succOf table) with
  | none => rw [hpk] at hb; exact Except.noConfusion hb
  | some c =>
      rw [hpk] at hb
      injection hb with hcb
      subst hcb
      obtain ⟨l1, l2, hdec, h1, h2⟩ := pickBest_spec _ _ hpk
      have hbmem : c ∈ succOf table := by
        rw [hdec]
        exact List.mem_append_right _ (List.mem_cons_self _ _)
      have hbf := List.mem_filter.mp hbmem
      refine ⟨by simpa using hbf.2, hbf.1, ?_, ⟨l1, l2, hdec, h1⟩⟩
      intro r hr hrs
      exact h2 r (List.mem_filter.mpr ⟨hr, by simp [hrs]⟩)

/-- A collaborator succeeding with the same cost everywhere (a tie). -/
def simTie : Case → Outcome := fun _ => .success 50 1

/-- The fixed fields shared by the concrete sweep below. -/
def fixedW : Fixed := { lat := 31, long := -102, gen_type := "Gas Engine", dc_load := 100 }

/-- A generated sweep of two cases: solar {0, 50}, storage {0}, generator {0}. -/
def casesCX : List Case :=
  mkCases fixedW (rangeList 0 100 50) (rangeList 0 50 50) (rangeList 0 25 25)

/-- The two cases of `casesCX`, in generation order. -/
def caseA : Case := mkCase fixedW 0 0 0

def caseB : Case := mkCase fixedW 50 0 0

/-- A completion-order table in which `caseB` finished before `caseA`. -/
def permTable : List RcResult := [run_case simTie caseB, run_case simTie caseA]

theorem bestRow_first_min_witness :
    (run_case simTie caseA).status = "success" ∧
    run_case simTie caseA ∈ evalAll simTie casesCX ∧
    (∀ r ∈ evalAll simTie casesCX, r.status = "success" →
      lcoeVal (run_case simTie caseA) ≤ lcoeVal r) ∧
    ∃ l1 l2, succOf (evalAll simTie casesCX) = l1 ++ run_case simTie caseA :: l2 ∧
      ∀ r ∈ l1, lcoeVal (run_case simTie caseA) < lcoeVal r :=
  bestRow_first_min_in_table_order simTie casesCX (evalAll simTie casesCX)
    (List.Perm.refl _) (run_case simTie caseA) rfl

/-- C1 counterexample: a legal completion order (a permutation of the
generated evaluation order) on which best-row selection, at a cost tie,
returns a different row than it does on the generation-order table — so the
ResultTable order the tie-break uses does not equal generation order. -/
theorem bestRow_order_counterexample :
    permTable.Perm (evalAll simTie casesCX) ∧
    permTable ≠ evalAll simTie casesCX ∧
    selectBest permTable ≠ selectBest (evalAll simTie casesCX) := by
  have hcx : evalAll simTie casesCX = [run_case simTie caseA, run_case simTie caseB] := by
    decide
  rw [hcx]
  refine ⟨List.Perm.swap (run_case simTie caseA) (run_case simTie caseB) [],
    by decide, ?_⟩
  intro h
  have h1 : selectBest permTable = .ok (run_case simTie caseB) := rfl
  have h2 : selectBest [run_case simTie caseA, run_case simTie caseB]
      = .ok (run_case simTie caseA) := rfl
  rw [h1, h2] at h
  injection h with h3
  have h4 : (run_case simTie caseB).case = (run_case simTie caseA).case := by rw [h3]
  exact absurd h4 (by decide)

/-- `paretoLe` is total: any two rows are comparable. -/
lemma paretoLe_total (a b : RcResult) : paretoLe a b ∨ paretoLe b a := by
  unfold paretoLe
  rcases lt_trichotomy (lcoeVal a) (lcoeVal b) with h | h | h
  · exact Or.inl (Or.inl h)
  · rcases le_total (rfVal b) (rfVal a) with hr | hr
    · exact Or.inl (Or.inr ⟨h, hr⟩)
    · exact Or.inr (Or.inr ⟨h.symm, hr⟩)
  · exact Or.inr (Or.inl h)

/-- `paretoLe` is transitive. -/
lemma paretoLe_trans {a b c : RcResult} (h1 : paretoLe a b) (h2 : paretoLe b c) :
    paretoLe a c := by
  unfold paretoLe at h1 h2 ⊢
  rcases h1 with h1 | ⟨h1e, h1r⟩ <;> rcases h2 with h2 | ⟨h2e, h2r⟩
  · exact Or.inl (h1.trans h2)
  · exact Or.inl (h2e ▸ h1)
  · exact Or.inl (h1e ▸ h2)
  · exact Or.inr ⟨h1e.trans h2e, h2r.trans h1r⟩

/-- Membership through `insertSorted`. -/
lemma mem_insertSorted (a x : RcResult) (l : List RcResult) :
    x ∈ insertSorted a l ↔ x = a ∨ x ∈ l := by
  induction l with
  | nil => simp [insertSorted]
  | cons b t ih =>
      unfold insertSorted
      split_ifs with h
      · simp [List.mem_cons]
      · rw [List.mem_cons, ih, List.mem_cons]
        tauto

/-- `insertSorted` preserves sortedness. -/
lemma pairwise_insertSorted (a : RcResult) (l : List RcResult)
    (h : l.Pairwise paretoLe) : (insertSorted a l).Pairwise paretoLe := by
  induction l with
  | nil => simp [insertSorted]
  | cons b t ih =>
      rw [List.pairwise_cons] at h
      obtain ⟨hb, ht⟩ := h
      unfold insertSorted
      split_ifs with hab
      · rw [List.pairwise_cons]
        refine ⟨?_, List.pairwise_cons.mpr ⟨hb, ht⟩⟩
        intro x hx
        rcases List.mem_cons.mp hx with rfl | hx2
        · exact hab
        · exact paretoLe_trans hab (hb x hx2)
      · have hba : paretoLe b a := (paretoLe_total a b).resolve_left hab
        rw [List.pairwise_cons]
        refine ⟨?_, ih ht⟩
        intro x hx
        rcases (mem_insertSorted a x t).mp hx with rfl | hx2
        · exact hba
        · exact hb x hx2

/-- Membership through `sortByCost`. -/
lemma mem_sortByCost (x : RcResult) (l : List RcResult) :
    x ∈ sortByCost l ↔ x ∈ l := by
  induction l with
  | nil => simp [sortByCost]
  | cons a t ih =>
      unfold sortByCost
      rw [mem_insertSorted, ih, List.mem_cons]

/-- `sortByCost` sorts by `paretoLe`. -/
lemma pairwise_sortByCost (l : List RcResult) : (sortByCost l).Pairwise paretoLe := by
  induction l with
  | nil => simp [sortByCost]
  | cons a t ih => exact pairwise_insertSorted a _ ih

/-- The skyline sweep over a sorted tail: every kept point comes from the
input and strictly exceeds the running maximum `m` in renewable fraction, and
the kept points form a chain that strictly increases in both cost and
renewable fraction. -/
lemma skylineAux_spec (l : List RcResult) (m : ℚ) (h : l.Pairwise paretoLe) :
    (∀ x ∈ skylineAux m l, x ∈ l ∧ m < rfVal x) ∧
    (skylineAux m l).Pairwise (fun a b => lcoeVal a < lcoeVal b ∧ rfVal a < rfVal b) := by
  induction l generalizing m with
  | nil => simp [skylineAux]
  | cons p t ih =>
      rw [List.pairwise_cons] at h
      obtain ⟨hp, ht⟩ := h
      unfold skylineAux
      split_ifs with hm
      · obtain ⟨ihmem, ihpw⟩ := ih (rfVal p) ht
        constructor
        · intro x hx
          rcases List.mem_cons.mp hx with rfl | hx2
          · exact ⟨List.mem_cons_self _ _, hm⟩
          · obtain ⟨hxt, hrf⟩ := ihmem x hx2
            exact ⟨List.mem_cons_of_mem _ hxt, lt_trans hm hrf⟩
        · rw [List.pairwise_cons]
          refine ⟨?_, ihpw⟩
          intro x hx
          obtain ⟨hxt, hrf⟩ := ihmem x hx
          refine ⟨?_, hrf⟩
          rcases hp x hxt with hlt | ⟨_, hr⟩
          · exact hlt
          · exact absurd hrf (not_lt.mpr hr)
      · obtain ⟨ihmem, ihpw⟩ := ih m ht
        constructor
        · intro x hx
          obtain ⟨hxt, hrf⟩ := ihmem x hx
          exact ⟨List.mem_cons_of_mem _ hxt, hrf⟩
        · exact ihpw

/-- The skyline of a sorted list: a sublist of the input whose points strictly
increase in both cost and renewable fraction. -/
lemma skyline_spec (l : List RcResult) (h : l.Pairwise paretoLe) :
    (∀ x ∈ skyline l, x ∈ l) ∧
    (skyline l).Pairwise (fun a b => lcoeVal a < lcoeVal b ∧ rfVal a < rfVal b) := by
  cases l with
  | nil => simp [skyline]
  | cons p t =>
      rw [List.pairwise_cons] at h
      obtain ⟨hp, ht⟩ := h
      obtain ⟨ihmem, ihpw⟩ := skylineAux_spec t (rfVal p) ht
      unfold skyline
      constructor
      · intro x hx
        rcases List.mem_cons.mp hx with rfl | hx2
        · exact List.mem_cons_self _ _
        · exact List.mem_cons_of_mem _ (ihmem x hx2).1
      · rw [List.pairwise_cons]
        refine ⟨?_, ihpw⟩
        intro x hx
        obtain ⟨hxt, hrf⟩ := ihmem x hx
        refine ⟨?_, hrf⟩
        rcases hp x hxt with hlt | ⟨_, hr⟩
        · exact hlt
        · exact absurd hrf (not_lt.mpr hr)

/-- C8: every frontier member is a success row of the input table; no
frontier member dominates another (cost ≤ and renewable fraction ≥ with at
least one strict); and the frontier is ordered by strictly ascending cost. -/
theorem pareto_frontier_spec (table : List RcResult) :
    (∀ a ∈ process_ensemble_data table, a.status = "success" ∧ a ∈ table) ∧
    (∀ a ∈ process_ensemble_data table, ∀ b ∈ process_ensemble_data table,
      ¬(lcoeVal a ≤ lcoeVal b ∧ rfVal b ≤ rfVal a ∧
        (lcoeVal a < lcoeVal b ∨ rfVal b < rfVal a))) ∧
    (process_ensemble_data table).Pairwise (fun a b => lcoeVal a < lcoeVal b) := by
  obtain ⟨hmem, hpw⟩ := skyline_spec _ (pairwise_sortByCost (succOf table))
  have hmem2 : ∀ a ∈ process_ensemble_data table, a ∈ succOf table := by
    intro a ha
    exact (mem_sortByCost a _).mp (hmem a ha)
  refine ⟨?_, ?_, hpw.imp (fun h => h.1)⟩
  · intro a ha
    have h2 := List.mem_filter.mp (hmem2 a ha)
    exact ⟨by simpa using h2.2, h2.1⟩
  · intro a ha b hb
    by_cases hab : a = b
    · subst hab
      rintro ⟨-, -, h3 | h3⟩ <;> exact lt_irrefl _ h3
    · have hsym := List.Pairwise.forall
        (R := fun x y => (lcoeVal x < lcoeVal y ∧ rfVal x < rfVal y) ∨
          (lcoeVal y < lcoeVal x ∧ rfVal y < rfVal x))
        (fun x y hxy => hxy.symm) (hpw.imp fun h => Or.inl h) ha hb hab
      rcases hsym with ⟨hc, hr⟩ | ⟨hc, hr⟩
      · rintro ⟨-, h2, -⟩
        exact absurd h2 (not_le.mpr hr)
      · rintro ⟨h1, -, -⟩
        exact absurd h1 (not_le.mpr hc)

end CostCalc
